import Mathlib

/-!
Verification development for the Todo-app repository (React + Supabase client).

The embedding covers the code the specification claims are about:
- the AI gateway `generateTodosFromPrompt` in `src/lib/ai.ts`, including its
  two-tier JSON parsing (direct parse, then first-brace/last-brace recovery);
- the Data Access Layer in `src/pages/Todos.tsx` (`fetchTodos`, `createTodo`,
  `updateTodo`, `deleteTodo`) over an explicit server-database state that
  models the Supabase `todos` table (schema and defaults from
  `supabase-setup.sql`) with row-level authorization;
- the synchronization-cache behavior of the react-query configuration in
  `src/App.tsx` (`retry: 1` for queries) and of the three `useMutation`
  blocks (mutation function called once, cache invalidated on success only);
- the client-side validation paths (`todoSchema`, `handleSaveEdit`,
  `handleAddSelectedSuggestions`).

JavaScript strings are modelled as Lean `String` (lists of characters),
`JSON.parse` as an executable recursive-descent parser over `List Char`,
timestamps as `Nat` (the server assigns strictly increasing `created_at`
values), and every network interaction as an explicit oracle argument so
that failure injection and call counting are visible in the model.
-/

/-- JSON values as produced by a successful `JSON.parse`.  Numbers keep
their source lexeme (the claims never inspect numeric values, and this
avoids committing to floating-point semantics). -/
inductive Json where
  | null : Json
  | bool (b : Bool) : Json
  | num (lexeme : String) : Json
  | str (s : String) : Json
  | arr (elems : List Json) : Json
  | obj (fields : List (String × Json)) : Json

/-- JSON insignificant whitespace characters. -/
def isJsonWs (c : Char) : Bool :=
  c = ' ' || c = '\t' || c = '\n' || c = '\r'

/-- Drop leading JSON whitespace. -/
def skipWs : List Char → List Char
  | [] => []
  | c :: cs => if isJsonWs c then skipWs cs else c :: cs

/-- Value of a hexadecimal digit, if the character is one. -/
def hexVal (c : Char) : Option Nat :=
  if '0' ≤ c ∧ c ≤ '9' then some (c.toNat - 48)
  else if 'a' ≤ c ∧ c ≤ 'f' then some (c.toNat - 87)
  else if 'A' ≤ c ∧ c ≤ 'F' then some (c.toNat - 55)
  else none

/-- Decode one escape sequence body (the part after the backslash). -/
def escChar : Char → List Char → Option (Char × List Char)
  | '"', r => some ('"', r)
  | '\\', r => some ('\\', r)
  | '/', r => some ('/', r)
  | 'b', r => some (Char.ofNat 8, r)
  | 'f', r => some (Char.ofNat 12, r)
  | 'n', r => some ('\n', r)
  | 'r', r => some ('\r', r)
  | 't', r => some ('\t', r)
  | 'u', a :: b :: c :: d :: r =>
    match hexVal a, hexVal b, hexVal c, hexVal d with
    | some x, some y, some z, some w =>
      some (Char.ofNat (((x * 16 + y) * 16 + z) * 16 + w), r)
    | _, _, _, _ => none
  | _, _ => none

/-- Parse the remainder of a JSON string literal (after the opening quote),
returning the decoded characters and the input after the closing quote. -/
def parseStrChars : Nat → List Char → Option (List Char × List Char)
  | 0, _ => none
  | _, [] => none
  | fuel + 1, c :: rest =>
    if c = '"' then some ([], rest)
    else if c = '\\' then
      match rest with
      | [] => none
      | e :: rest2 =>
        match escChar e rest2 with
        | none => none
        | some (d, rest3) =>
          match parseStrChars fuel rest3 with
          | none => none
          | some (cs, r) => some (d :: cs, r)
    else
      match parseStrChars fuel rest with
      | none => none
      | some (cs, r) => some (c :: cs, r)

/-- Take a maximal run of decimal digits. -/
def takeDigits : List Char → List Char × List Char
  | [] => ([], [])
  | c :: cs =>
    if c.isDigit then
      let (ds, r) := takeDigits cs
      (c :: ds, r)
    else ([], c :: cs)

/-- Integer part of a JSON number: `0`, or a nonzero digit followed by digits. -/
def parseIntPart : List Char → Option (List Char × List Char)
  | [] => none
  | c :: cs =>
    if c = '0' then some (['0'], cs)
    else if c.isDigit then
      let (ds, r) := takeDigits cs
      some (c :: ds, r)
    else none

/-- Optional fractional part of a JSON number. -/
def parseFrac : List Char → List Char × List Char
  | '.' :: c :: cs =>
    if c.isDigit then
      let (ds, r) := takeDigits cs
      ('.' :: c :: ds, r)
    else ([], '.' :: c :: cs)
  | cs => ([], cs)

/-- Optional exponent part of a JSON number. -/
def parseExp : List Char → List Char × List Char
  | [] => ([], [])
  | c :: cs =>
    if c = 'e' || c = 'E' then
      match cs with
      | [] => ([], [c])
      | s :: cs2 =>
        if s = '+' || s = '-' then
          match cs2 with
          | [] => ([], c :: s :: cs2)
          | d :: cs3 =>
            if d.isDigit then
              let (ds, r) := takeDigits cs3
              (c :: s :: d :: ds, r)
            else ([], c :: s :: cs2)
        else if s.isDigit then
          let (ds, r) := takeDigits cs2
          (c :: s :: ds, r)
        else ([], c :: s :: cs2)
    else ([], c :: cs)

/-- Parse a JSON number, keeping its lexeme. -/
def parseNum (cs : List Char) : Option (Json × List Char) :=
  let (neg, cs1) :=
    match cs with
    | '-' :: r => (['-'], r)
    | r => (([] : List Char), r)
  match parseIntPart cs1 with
  | none => none
  | some (ip, r1) =>
    let (fp, r2) := parseFrac r1
    let (ep, r3) := parseExp r2
    some (.num ⟨neg ++ ip ++ fp ++ ep⟩, r3)

mutual

/-- Parse one JSON value (fuelled recursive descent). -/
def parseValue : Nat → List Char → Option (Json × List Char)
  | 0, _ => none
  | fuel + 1, input =>
    match skipWs input with
    | [] => none
    | 't' :: 'r' :: 'u' :: 'e' :: r => some (.bool true, r)
    | 'f' :: 'a' :: 'l' :: 's' :: 'e' :: r => some (.bool false, r)
    | 'n' :: 'u' :: 'l' :: 'l' :: r => some (.null, r)
    | '"' :: r =>
      match parseStrChars (r.length + 1) r with
      | none => none
      | some (cs, rest) => some (.str ⟨cs⟩, rest)
    | '{' :: r =>
      match skipWs r with
      | '}' :: rest => some (.obj [], rest)
      | r2 =>
        match parseFields fuel r2 with
        | none => none
        | some (fs, rest) => some (.obj fs, rest)
    | '[' :: r =>
      match skipWs r with
      | ']' :: rest => some (.arr [], rest)
      | r2 =>
        match parseElems fuel r2 with
        | none => none
        | some (es, rest) => some (.arr es, rest)
    | cs => parseNum cs

/-- Parse the members of a JSON object (after the opening brace, at least one). -/
def parseFields : Nat → List Char → Option (List (String × Json) × List Char)
  | 0, _ => none
  | fuel + 1, input =>
    match skipWs input with
    | '"' :: r =>
      match parseStrChars (r.length + 1) r with
      | none => none
      | some (key, r1) =>
        match skipWs r1 with
        | ':' :: r2 =>
          match parseValue fuel r2 with
          | none => none
          | some (v, r3) =>
            match skipWs r3 with
            | ',' :: r4 =>
              match parseFields fuel r4 with
              | none => none
              | some (fs, rest) => some ((⟨key⟩, v) :: fs, rest)
            | '}' :: r4 => some ([(⟨key⟩, v)], r4)
            | _ => none
        | _ => none
    | _ => none

/-- Parse the elements of a JSON array (after the opening bracket, at least one). -/
def parseElems : Nat → List Char → Option (List Json × List Char)
  | 0, _ => none
  | fuel + 1, input =>
    match parseValue fuel input with
    | none => none
    | some (v, r1) =>
      match skipWs r1 with
      | ',' :: r2 =>
        match parseElems fuel r2 with
        | none => none
        | some (es, rest) => some (v :: es, rest)
      | ']' :: r2 => some ([v], r2)
      | _ => none

end

/-- The model of `JSON.parse`: parse one value and require that only
whitespace remains. -/
def Json.parse (s : String) : Option Json :=
  match parseValue (s.data.length * 2 + 8) s.data with
  | some (v, rest) => if skipWs rest = [] then some v else none
  | none => none

/-- Whitespace trimmed by the JavaScript `String.trim` (restricted to the
ASCII whitespace characters that occur in this application). -/
def isJsWs (c : Char) : Bool :=
  c = ' ' || c = '\t' || c = '\n' || c = '\r'

/-- Drop leading JavaScript whitespace. -/
def dropWsLeft : List Char → List Char
  | [] => []
  | c :: cs => if isJsWs c then dropWsLeft cs else c :: cs

/-- Model of the JavaScript `String.trim`. -/
def jsTrim (s : String) : String :=
  ⟨(dropWsLeft (dropWsLeft s.data).reverse).reverse⟩

/-- Model of `String.indexOf` for a single character, with `none` for the
JavaScript result `-1`. -/
def idxOf (c : Char) : List Char → Option Nat
  | [] => none
  | x :: xs => if x = c then some 0 else (idxOf c xs).map (· + 1)

/-- Model of `String.lastIndexOf` for a single character, with `none` for
the JavaScript result `-1`. -/
def lastIdxOf (c : Char) (cs : List Char) : Option Nat :=
  (idxOf c cs.reverse).map (fun i => cs.length - 1 - i)

/-- Model of `String.slice(start, stop)` for nonnegative arguments. -/
def jsSlice (s : String) (start stop : Nat) : String :=
  ⟨((s.data).drop start).take (stop - start)⟩

/-- Property lookup on a parsed JSON object: `JSON.parse` keeps the last
occurrence of a duplicated key, so lookup prefers later fields. -/
def lookupLast (k : String) : List (String × Json) → Option Json
  | [] => none
  | (k', v) :: rest =>
    match lookupLast k rest with
    | some v' => some v'
    | none => if k' = k then some v else none

/-- Error outcomes of the AI gateway `generateTodosFromPrompt`
(`src/lib/ai.ts`).  Each constructor corresponds to one `throw` site:
`notConfigured` for the missing-credential guard, `requestFailed` for a
non-ok HTTP status, `invalidEnvelope` for a response body that is not JSON
(the `response.json()` rejection), `emptyResponse` for a missing or empty
completion text, `parseError` for the final parse failure, and
`nullAccess` for the property access `parsed.suggestions` when the parsed
completion is the JSON value `null` (a TypeError in JavaScript). -/
inductive AiError where
  | notConfigured : AiError
  | requestFailed (status : Nat) (statusText : String) (body : String) : AiError
  | invalidEnvelope : AiError
  | emptyResponse : AiError
  | parseError : AiError
  | nullAccess : AiError
deriving DecidableEq

/-- The expression `parsed.suggestions ?? []` of `src/lib/ai.ts:134`:
property access on the parsed completion, with `??` replacing a missing
(`undefined`) or `null` field by the empty array.  Property access on a
non-object non-null value yields `undefined`, hence the empty array;
property access on `null` throws. -/
def suggestionsResult : Json → Except AiError Json
  | .null => .error .nullAccess
  | .obj fs =>
    match lookupLast "suggestions" fs with
    | none => .ok (.arr [])
    | some .null => .ok (.arr [])
    | some v => .ok v
  | _ => .ok (.arr [])

/-- The access `json.choices?.[0]?.message?.content` on the parsed HTTP
response envelope, yielding the completion text when the path exists and
holds a string. -/
def contentOf : Json → Option String
  | .obj fs =>
    match lookupLast "choices" fs with
    | some (.arr (.obj cf :: _)) =>
      match lookupLast "message" cf with
      | some (.obj mf) =>
        match lookupLast "content" mf with
        | some (.str s) => some s
        | _ => none
      | _ => none
    | _ => none
  | _ => none

/-- Lines 116 to 134 of `src/lib/ai.ts`: parse the completion text as JSON;
if the direct parse fails, locate the first opening brace and the last
closing brace and parse that substring; if either index is missing or the
recovery parse fails as well, fail with the parse error; on a successful
parse return `parsed.suggestions ?? []`. -/
def parseCompletion (content : String) : Except AiError Json :=
  match Json.parse content with
  | some parsed => suggestionsResult parsed
  | none =>
    match idxOf '{' content.data, lastIdxOf '}' content.data with
    | some start, some stop =>
      match Json.parse (jsSlice content start (stop + 1)) with
      | some parsed => suggestionsResult parsed
      | none => .error .parseError
    | _, _ => .error .parseError

/-- The HTTP response observed by the single `fetch` call of the AI
gateway.  The request construction (model name, system prompt built from
the existing titles, temperature, response-format constraint) does not
influence any claim and is abstracted into this oracle. -/
structure AiHttpResponse where
  ok : Bool
  status : Nat
  statusText : String
  body : String

/-- The module-level credential normalization of `src/lib/ai.ts:1`:
`import.meta.env.VITE_OPENAI_API_KEY?.trim() || ''`. -/
def openAiApiKeyOf : Option String → String
  | none => ""
  | some s => jsTrim s

/-- The AI gateway `generateTodosFromPrompt` (`src/lib/ai.ts:55-135`).
The second component counts the network calls performed.  With an empty
credential the function throws the not-configured error before any
network call; otherwise exactly one `fetch` is issued and its response is
checked for HTTP success, parsed as a JSON envelope, the completion text
is extracted (missing or empty text is the empty-response error), and the
completion is parsed by `parseCompletion`. -/
def generateTodosFromPrompt (apiKey : String) (_prompt : String)
    (_existingTitles : List String) (resp : AiHttpResponse) :
    Except AiError Json × Nat :=
  if apiKey = "" then (.error .notConfigured, 0)
  else if !resp.ok then
    (.error (.requestFailed resp.status resp.statusText resp.body), 1)
  else
    match Json.parse resp.body with
    | none => (.error .invalidEnvelope, 1)
    | some envelope =>
      match contentOf envelope with
      | none => (.error .emptyResponse, 1)
      | some content =>
        if content = "" then (.error .emptyResponse, 1)
        else (parseCompletion content, 1)

/-- The `Todo` row (`src/pages/Todos.tsx:15-21`, schema in
`supabase-setup.sql`).  The timestamp `created_at` is modelled as a `Nat`
assigned by the server. -/
structure Todo where
  id : String
  title : String
  completed : Bool
  created_at : Nat
  user_id : String
deriving DecidableEq

/-- The TypeScript argument type `Partial<Todo>` of `updateTodo`: every
field optional; a field that is `none` is absent from the JSON payload
sent to the service. -/
structure TodoUpdates where
  id : Option String := none
  title : Option String := none
  completed : Option Bool := none
  created_at : Option Nat := none
  user_id : Option String := none
deriving DecidableEq

/-- The field names present in an update payload (the keys of the JSON
object the client sends). -/
def sentFields (u : TodoUpdates) : List String :=
  (if u.id.isSome then ["id"] else []) ++
  (if u.title.isSome then ["title"] else []) ++
  (if u.completed.isSome then ["completed"] else []) ++
  (if u.created_at.isSome then ["created_at"] else []) ++
  (if u.user_id.isSome then ["user_id"] else [])

/-- Server state of the `todos` table.  `nextId` yields fresh row ids and
`now` is the server clock; both advance on each insert, so `created_at`
values are assigned in strictly increasing call-completion order. -/
structure DB where
  rows : List Todo
  nextId : Nat
  now : Nat
deriving DecidableEq

/-- Failures of the Data Access Layer (`src/pages/Todos.tsx`):
`notAuthenticated` is the explicit `throw new Error('Not authenticated')`
in `createTodo`; `remote` is a rethrown service error carrying the
diagnostic text of the underlying service. -/
inductive DalError where
  | notAuthenticated : DalError
  | remote (msg : String) : DalError
deriving DecidableEq

/-- Descending order on server-assigned creation timestamps, the order
requested by `.order('created_at', \x7b ascending: false \x7d)`. -/
def createdDesc (a b : Todo) : Prop :=
  b.created_at ≤ a.created_at

instance : DecidableRel createdDesc :=
  fun a b => Nat.decLe b.created_at a.created_at

instance : IsTotal Todo createdDesc :=
  ⟨fun a b => (Nat.le_total b.created_at a.created_at)⟩

instance : IsTrans Todo createdDesc :=
  ⟨fun _ _ _ hab hbc => Nat.le_trans hbc hab⟩

/-- The rows of the table visible to an identity under the row-level
security policy of `supabase-setup.sql` (`auth.uid() = user_id`). -/
def ownedRows (db : DB) (uid : String) : List Todo :=
  db.rows.filter (fun r => r.user_id == uid)

/-- Result of `select * order by created_at desc` under row-level
security: the rows owned by the identity, newest first. -/
def dbSelectTodos (db : DB) (uid : String) : List Todo :=
  List.insertionSort createdDesc (ownedRows db uid)

/-- The list a refetch of the todos query stores in the cache: the
select result for the current identity, or no rows without a session. -/
def refetchCache (auth : Option String) (db : DB) : List Todo :=
  match auth with
  | none => []
  | some uid => dbSelectTodos db uid

/-- `fetchTodos` (`src/pages/Todos.tsx:29-37`): select all rows (row-level
security restricts them to the current identity), newest first; a service
error is rethrown with its diagnostic text.  `svcErr` injects the service
outcome of this call. -/
def fetchTodos (auth : Option String) (svcErr : Option String) (db : DB) :
    Except DalError (List Todo) :=
  match svcErr with
  | some m => .error (.remote m)
  | none => .ok (refetchCache auth db)

/-- The row the server builds for an insert of `\x7b title, user_id \x7d`:
`id` and `created_at` are server-assigned, `completed` defaults to false
(`supabase-setup.sql`). -/
def serverNewTodo (db : DB) (uid : String) (title : String) : Todo :=
  { id := toString db.nextId, title := title, completed := false,
    created_at := db.now, user_id := uid }

/-- Server-side effect of a successful insert: append the new row and
advance the id counter and the clock. -/
def dbInsert (db : DB) (uid : String) (title : String) : Todo × DB :=
  let t := serverNewTodo db uid title
  (t, { rows := db.rows ++ [t], nextId := db.nextId + 1, now := db.now + 1 })

/-- `createTodo` (`src/pages/Todos.tsx:39-53`): read the authenticated
identity at call time (`supabase.auth.getUser()`, the `auth` argument);
with no identity throw before issuing the insert; otherwise insert
`\x7b title, user_id \x7d` and return the populated row.  The second
component counts the insert calls issued. -/
def createTodo (auth : Option String) (svcErr : Option String) (db : DB)
    (title : String) : Except DalError (Todo × DB) × Nat :=
  match auth with
  | none => (.error .notAuthenticated, 0)
  | some uid =>
    match svcErr with
    | some m => (.error (.remote m), 1)
    | none => (.ok (dbInsert db uid title), 1)

/-- Apply an update payload to a row: fields present in the payload
overwrite the row, absent fields are untouched. -/
def applyUpdates (u : TodoUpdates) (t : Todo) : Todo :=
  { id := u.id.getD t.id, title := u.title.getD t.title,
    completed := u.completed.getD t.completed,
    created_at := u.created_at.getD t.created_at,
    user_id := u.user_id.getD t.user_id }

/-- `updateTodo` (`src/pages/Todos.tsx:55-65`): update the row with the
given id with exactly the provided fields and return the updated row via
`.select().single()`; `.single()` fails when no row matches. -/
def updateTodo (svcErr : Option String) (db : DB) (id : String)
    (u : TodoUpdates) : Except DalError (Todo × DB) :=
  match svcErr with
  | some m => .error (.remote m)
  | none =>
    match db.rows.find? (fun r => r.id == id) with
    | none => .error (.remote "no row matched the update")
    | some t =>
      .ok (applyUpdates u t,
        { db with rows :=
            db.rows.map (fun r => if r.id == id then applyUpdates u r else r) })

/-- `deleteTodo` (`src/pages/Todos.tsx:67-71`): delete rows with the given
id; deleting an absent id is not an error. -/
def deleteTodo (svcErr : Option String) (db : DB) (id : String) :
    Except DalError (Unit × DB) :=
  match svcErr with
  | some m => .error (.remote m)
  | none => .ok ((), { db with rows := db.rows.filter (fun r => !(r.id == id)) })

/-- The three mutation kinds issued through the synchronization cache. -/
inductive MutationRequest where
  | create (title : String) : MutationRequest
  | update (id : String) (updates : TodoUpdates) : MutationRequest
  | delete (id : String) : MutationRequest

/-- Value delivered to the caller of a successful mutation. -/
inductive MutationValue where
  | todo (t : Todo) : MutationValue
  | unit : MutationValue
deriving DecidableEq

/-- Dispatch of a mutation request to its Data Access Layer call
(the `mutationFn` of the corresponding `useMutation` block). -/
def dalCall (req : MutationRequest) (auth : Option String)
    (svcErr : Option String) (db : DB) : Except DalError (MutationValue × DB) :=
  match req with
  | .create title =>
    (createTodo auth svcErr db title).1.map (fun p => (.todo p.1, p.2))
  | .update id u =>
    (updateTodo svcErr db id u).map (fun p => (.todo p.1, p.2))
  | .delete id =>
    (deleteTodo svcErr db id).map (fun _p => (.unit, _p.2))

/-- Observable trace of one mutation request through the synchronization
cache: the cached list visible while the mutation is pending, the result
reported to the caller, the cached list and server state after
settlement, and how often the mutation function ran. -/
structure MutationTrace where
  pendingCache : List Todo
  result : Except DalError MutationValue
  finalCache : List Todo
  finalDb : DB
  mutationFnCalls : Nat

/-- One mutation through a `useMutation` block of `src/pages/Todos.tsx`
(lines 89 to 109): the mutation function is invoked exactly once
(react-query performs no retries on mutations and no `onMutate` optimistic
handler is configured, so the cache is untouched while pending); on
success the `onSuccess` handler invalidates the todos query, which
triggers a fresh read; on failure the rejection is reported to the caller
and the cache keeps its previous contents. -/
def runMutation (req : MutationRequest) (auth : Option String)
    (svcErr : Option String) (db : DB) (cache : List Todo) : MutationTrace :=
  match dalCall req auth svcErr db with
  | .error e =>
    { pendingCache := cache, result := .error e, finalCache := cache,
      finalDb := db, mutationFnCalls := 1 }
  | .ok (v, db2) =>
    { pendingCache := cache, result := .ok v,
      finalCache := refetchCache auth db2, finalDb := db2,
      mutationFnCalls := 1 }

/-- Fuelled retry loop of the query runner: try the attempt with the
given index; on failure, retry while budget remains, else report the last
error.  The second component counts the attempts performed. -/
def runAttempts (outcomes : Nat → Except DalError (List Todo)) :
    Nat → Nat → Except DalError (List Todo) × Nat
  | start, 0 =>
    match outcomes start with
    | .ok v => (.ok v, 1)
    | .error e => (.error e, 1)
  | start, budget + 1 =>
    match outcomes start with
    | .ok v => (.ok v, 1)
    | .error _ =>
      let (r, n) := runAttempts outcomes (start + 1) budget
      (r, n + 1)

/-- The retry bound configured for queries in `src/App.tsx:15`
(`retry: 1`). -/
def queryRetryLimit : Nat := 1

/-- One read of the todos query under the configured retry policy. -/
def runQueryRead (outcomes : Nat → Except DalError (List Todo)) :
    Except DalError (List Todo) × Nat :=
  runAttempts outcomes 0 queryRetryLimit

/-- Errors the caller of a read observes: none on success (retried
attempts are internal), exactly the final error on failure. -/
def surfacedErrors : Except DalError (List Todo) → List DalError
  | .ok _ => []
  | .error e => [e]

/-- The zod schema `todoSchema` (`src/pages/Todos.tsx:23-25`):
`z.string().min(1)`, that is, length at least one. -/
def todoSchemaCheck (title : String) : Bool :=
  decide (1 ≤ title.data.length)

/-- The create-form submission path: `zodResolver(todoSchema)` gates
`onSubmit`, which calls `createMutation.mutateAsync(data.title)` with the
submitted title unchanged.  The result is the title sent to `createTodo`,
or `none` when validation blocks the submission. -/
def onSubmitCreate (title : String) : Option String :=
  if todoSchemaCheck title then some title else none

/-- The edit submission path `handleSaveEdit`
(`src/pages/Todos.tsx:145-159`): return early when the trimmed edit text
is empty, else send `\x7b title: editTitle.trim() \x7d`.  The result is
the title payload of the issued update, or `none` when no call is
issued. -/
def handleSaveEdit (editTitle : String) : Option String :=
  if jsTrim editTitle = "" then none else some (jsTrim editTitle)

/-- An AI suggestion held in client state (`AiTodoSuggestion` in
`src/lib/ai.ts`). -/
structure AiTodoSuggestion where
  title : String
  reason : Option String := none

/-- The expression `aiSuggestions[i]?.title`: the title of the suggestion
at the index, or `undefined` when the index is out of range. -/
def suggestionTitleAt (suggestions : List AiTodoSuggestion) (i : Nat) :
    Option String :=
  (suggestions.get? i).map (fun s => s.title)

/-- The `titlesToAdd` computation of `handleAddSelectedSuggestions`
(`src/pages/Todos.tsx:202-207`): map the selected indexes to suggestion
titles and keep those for which `Boolean(t && t.trim())` holds, that is,
defined, nonempty and not whitespace-only. -/
def titlesToAdd (selected : List Nat) (suggestions : List AiTodoSuggestion) :
    List String :=
  (selected.map (suggestionTitleAt suggestions)).filterMap (fun o =>
    match o with
    | none => none
    | some t => if t = "" || jsTrim t = "" then none else some t)

/-- Server state after a batch of create calls completes in the given
order (`Promise.all` dispatches them concurrently; the server assigns
increasing `created_at` in completion order). -/
def bulkCreate (uid : String) (db : DB) : List String → DB
  | [] => db
  | t :: rest => bulkCreate uid (dbInsert db uid t).2 rest

/-- C3: for every prompt and every list of existing titles, invoking the
AI generation entrypoint with no API credential configured fails with the
not-configured error and performs zero network calls. -/
theorem ai_not_configured_no_network (env : Option String)
    (hkey : openAiApiKeyOf env = "") (prompt : String)
    (existingTitles : List String) (resp : AiHttpResponse) :
    generateTodosFromPrompt (openAiApiKeyOf env) prompt existingTitles resp =
      (.error .notConfigured, 0) := by
  simp [generateTodosFromPrompt, hkey]

theorem ai_not_configured_no_network_witness :
    openAiApiKeyOf none = "" ∧
    generateTodosFromPrompt (openAiApiKeyOf none) "plan my day" ["Buy milk"]
      ⟨true, 200, "OK", "unused"⟩ = (.error .notConfigured, 0) :=
  ⟨rfl, ai_not_configured_no_network none rfl "plan my day" ["Buy milk"]
    ⟨true, 200, "OK", "unused"⟩⟩

/-- C4: for every completion text whose direct JSON parse fails but whose
substring from the first opening brace to the last closing brace parses,
the gateway returns the same structured result as if only that bare JSON
object had been the completion text; if the recovery parse fails as well,
the gateway fails with the parse error. -/
theorem ai_parse_recovery (T : String) (s e : Nat)
    (hfail : Json.parse T = none)
    (hs : idxOf '{' T.data = some s)
    (he : lastIdxOf '}' T.data = some e) :
    (∀ j, Json.parse (jsSlice T s (e + 1)) = some j →
        parseCompletion T = parseCompletion (jsSlice T s (e + 1))) ∧
    (Json.parse (jsSlice T s (e + 1)) = none →
        parseCompletion T = .error .parseError) := by
  constructor
  · intro j hj
    simp [parseCompletion, hfail, hs, he, hj]
  · intro hj
    simp [parseCompletion, hfail, hs, he, hj]

/-- A completion wrapped in explanatory prose around a valid suggestions
object, used to witness the recovery path. -/
def aiProseText : String :=
  "Sure! Here is the plan: \x7b\"suggestions\": [\x7b\"title\": \"Pack bags\"\x7d]\x7d Enjoy."

theorem ai_parse_recovery_witness :
    Json.parse aiProseText = none ∧
    idxOf '{' aiProseText.data = some 24 ∧
    lastIdxOf '}' aiProseText.data = some 64 ∧
    parseCompletion aiProseText = parseCompletion (jsSlice aiProseText 24 65) ∧
    parseCompletion (jsSlice aiProseText 24 65) =
      .ok (.arr [.obj [("title", .str "Pack bags")]]) :=
  ⟨rfl, rfl, rfl,
   (ai_parse_recovery aiProseText 24 64 rfl rfl rfl).1
     (.obj [("suggestions", .arr [.obj [("title", .str "Pack bags")]])]) rfl,
   rfl⟩

/-- C10: if the completion text parses as a JSON object that lacks a
suggestions field, or has it null, the gateway returns the empty
suggestion list rather than failing with the parse error. -/
theorem ai_missing_suggestions_empty (content : String)
    (fs : List (String × Json))
    (hparse : Json.parse content = some (.obj fs))
    (hmiss : lookupLast "suggestions" fs = none ∨
      lookupLast "suggestions" fs = some .null) :
    parseCompletion content = .ok (.arr []) := by
  rcases hmiss with h | h <;> simp [parseCompletion, hparse, suggestionsResult, h]

theorem ai_missing_suggestions_empty_witness :
    parseCompletion "\x7b\"done\":true\x7d" = .ok (.arr []) ∧
    parseCompletion "\x7b\"suggestions\":null\x7d" = .ok (.arr []) :=
  ⟨ai_missing_suggestions_empty "\x7b\"done\":true\x7d" [("done", .bool true)]
      rfl (Or.inl rfl),
   ai_missing_suggestions_empty "\x7b\"suggestions\":null\x7d"
      [("suggestions", .null)] rfl (Or.inr rfl)⟩

/-- C1: for every mutation (create, update, delete) the Data Access Layer
call runs exactly once per mutation request and the cached list is not
changed optimistically while the mutation is pending; on success the
todos cache entry is invalidated and refilled by a fresh read of the
post-mutation server state; on failure the error is reported to the
caller and the cached list and server state are left unchanged. -/
theorem mutation_once_invalidate_on_success (req : MutationRequest)
    (auth : Option String) (svcErr : Option String) (db : DB)
    (cache : List Todo) :
    (runMutation req auth svcErr db cache).mutationFnCalls = 1 ∧
    (runMutation req auth svcErr db cache).pendingCache = cache ∧
    (∀ e, dalCall req auth svcErr db = .error e →
      (runMutation req auth svcErr db cache).result = .error e ∧
      (runMutation req auth svcErr db cache).finalCache = cache ∧
      (runMutation req auth svcErr db cache).finalDb = db) ∧
    (∀ v db2, dalCall req auth svcErr db = .ok (v, db2) →
      (runMutation req auth svcErr db cache).result = .ok v ∧
      (runMutation req auth svcErr db cache).finalCache = refetchCache auth db2 ∧
      (runMutation req auth svcErr db cache).finalDb = db2) := by
  cases h : dalCall req auth svcErr db with
  | error e =>
    refine ⟨by simp [runMutation, h], by simp [runMutation, h], ?_, ?_⟩
    · intro e2 he2
      injection he2 with he3
      subst he3
      exact ⟨by simp [runMutation, h], by simp [runMutation, h],
        by simp [runMutation, h]⟩
    · intro v db2 hv
      exact Except.noConfusion hv
  | ok p =>
    obtain ⟨v0, db0⟩ := p
    refine ⟨by simp [runMutation, h], by simp [runMutation, h], ?_, ?_⟩
    · intro e2 he2
      exact Except.noConfusion he2
    · intro v db2 hv
      simp only [Except.ok.injEq, Prod.mk.injEq] at hv
      obtain ⟨rfl, rfl⟩ := hv
      exact ⟨by simp [runMutation, h], by simp [runMutation, h],
        by simp [runMutation, h]⟩

theorem mutation_once_invalidate_on_success_witness :
    dalCall (.create "A") (some "u") none ⟨[], 0, 0⟩ =
      .ok (.todo (serverNewTodo ⟨[], 0, 0⟩ "u" "A"),
        (dbInsert ⟨[], 0, 0⟩ "u" "A").2) ∧
    (runMutation (.create "A") (some "u") none ⟨[], 0, 0⟩ []).result =
      .ok (.todo (serverNewTodo ⟨[], 0, 0⟩ "u" "A")) ∧
    (runMutation (.create "A") (some "u") none ⟨[], 0, 0⟩ []).finalCache =
      refetchCache (some "u") (dbInsert ⟨[], 0, 0⟩ "u" "A").2 ∧
    (runMutation (.create "A") (some "u") none ⟨[], 0, 0⟩ []).mutationFnCalls = 1 :=
  ⟨rfl,
   ((mutation_once_invalidate_on_success (.create "A") (some "u") none
      ⟨[], 0, 0⟩ []).2.2.2 _ _ rfl).1,
   ((mutation_once_invalidate_on_success (.create "A") (some "u") none
      ⟨[], 0, 0⟩ []).2.2.2 _ _ rfl).2.1,
   (mutation_once_invalidate_on_success (.create "A") (some "u") none
      ⟨[], 0, 0⟩ []).1⟩

/-- C2: a read that fails once and succeeds on the automatic retry
surfaces success with no visible error; a read that fails twice surfaces
exactly one error (the retry bound is 1, so a third attempt never
happens); the retry policy applies only to the read path — a mutation
invokes its Data Access Layer call exactly once even on failure. -/
theorem read_retry_bound :
    (∀ (outcomes : Nat → Except DalError (List Todo)) (e : DalError)
      (l : List Todo), outcomes 0 = .error e → outcomes 1 = .ok l →
      runQueryRead outcomes = (.ok l, 2) ∧
      surfacedErrors (runQueryRead outcomes).1 = []) ∧
    (∀ (outcomes : Nat → Except DalError (List Todo)) (e1 e2 : DalError),
      outcomes 0 = .error e1 → outcomes 1 = .error e2 →
      runQueryRead outcomes = (.error e2, 2) ∧
      (surfacedErrors (runQueryRead outcomes).1).length = 1) ∧
    queryRetryLimit = 1 ∧
    (∀ req auth svcErr db cache,
      (runMutation req auth svcErr db cache).mutationFnCalls = 1) := by
  refine ⟨?_, ?_, rfl, ?_⟩
  · intro outcomes e l h0 h1
    have hrun : runQueryRead outcomes = (.ok l, 2) := by
      simp [runQueryRead, queryRetryLimit, runAttempts, h0, h1]
    exact ⟨hrun, by rw [hrun]; rfl⟩
  · intro outcomes e1 e2 h0 h1
    have hrun : runQueryRead outcomes = (.error e2, 2) := by
      simp [runQueryRead, queryRetryLimit, runAttempts, h0, h1]
    exact ⟨hrun, by rw [hrun]; rfl⟩
  · intro req auth svcErr db cache
    cases h : dalCall req auth svcErr db with
    | error e => simp [runMutation, h]
    | ok p => simp [runMutation, h]

theorem read_retry_bound_witness :
    (fun n => if n = 0 then Except.error (DalError.remote "blip")
      else Except.ok ([] : List Todo)) 0 = .error (.remote "blip") ∧
    runQueryRead (fun n => if n = 0 then .error (.remote "blip")
      else .ok []) = (.ok [], 2) ∧
    runQueryRead (fun _ => .error (.remote "down")) =
      (.error (.remote "down"), 2) ∧
    (surfacedErrors (runQueryRead (fun _ => .error (.remote "down"))).1).length = 1 :=
  ⟨rfl,
   (read_retry_bound.1 (fun n => if n = 0 then .error (.remote "blip")
      else .ok []) (.remote "blip") [] rfl rfl).1,
   (read_retry_bound.2.1 (fun _ => .error (.remote "down"))
      (.remote "down") (.remote "down") rfl rfl).1,
   (read_retry_bound.2.1 (fun _ => .error (.remote "down"))
      (.remote "down") (.remote "down") rfl rfl).2⟩

/-- The update payload built by the completion checkbox handler
(`src/pages/Todos.tsx:415-418`): `\x7b completed: e.target.checked \x7d`. -/
def completedOnly (b : Bool) : TodoUpdates :=
  { completed := some b }

/-- C5: a call `updateTodo(id, \x7b completed: b \x7d)` sends exactly the
`completed` field (inside the allowed `\x7b title?, completed? \x7d`
shape) and the returned row keeps its prior title. -/
theorem update_completed_preserves_title (db : DB) (id : String) (b : Bool)
    (t : Todo) (hfind : db.rows.find? (fun r => r.id == id) = some t) :
    sentFields (completedOnly b) = ["completed"] ∧
    ∃ db2, updateTodo none db id (completedOnly b) =
        .ok (applyUpdates (completedOnly b) t, db2) ∧
      (applyUpdates (completedOnly b) t).title = t.title ∧
      (applyUpdates (completedOnly b) t).completed = b := by
  refine ⟨rfl, ⟨{ db with rows := db.rows.map (fun r =>
    if r.id == id then applyUpdates (completedOnly b) r else r) }, ?_, rfl, rfl⟩⟩
  simp [updateTodo, hfind]

theorem update_completed_preserves_title_witness :
    ([⟨"7", "Buy milk", false, 3, "u"⟩] : List Todo).find?
      (fun r => r.id == "7") = some ⟨"7", "Buy milk", false, 3, "u"⟩ ∧
    sentFields (completedOnly true) = ["completed"] ∧
    (applyUpdates (completedOnly true)
      (⟨"7", "Buy milk", false, 3, "u"⟩ : Todo)).title = "Buy milk" :=
  ⟨rfl,
   (update_completed_preserves_title ⟨[⟨"7", "Buy milk", false, 3, "u"⟩], 8, 4⟩
      "7" true ⟨"7", "Buy milk", false, 3, "u"⟩ rfl).1,
   (match (update_completed_preserves_title
      ⟨[⟨"7", "Buy milk", false, 3, "u"⟩], 8, 4⟩ "7" true
      ⟨"7", "Buy milk", false, 3, "u"⟩ rfl).2 with
    | ⟨_, _, ht, _⟩ => ht)⟩

/-- C6: `createTodo` reads the authenticated identity at call time (the
`auth` argument is the result of the `getUser` call performed inside the
function, not a cached value); with no identity it fails with the
not-authenticated error having issued zero inserts, and on success it
returns the row populated with the server-assigned id, creation
timestamp and owner. -/
theorem create_requires_identity (svcErr : Option String) (db : DB)
    (title uid : String) :
    createTodo none svcErr db title = (.error .notAuthenticated, 0) ∧
    createTodo (some uid) none db title = (.ok (dbInsert db uid title), 1) ∧
    (dbInsert db uid title).1 = serverNewTodo db uid title ∧
    (serverNewTodo db uid title).id = toString db.nextId ∧
    (serverNewTodo db uid title).created_at = db.now ∧
    (serverNewTodo db uid title).user_id = uid ∧
    (serverNewTodo db uid title).title = title ∧
    (serverNewTodo db uid title).completed = false :=
  ⟨rfl, rfl, rfl, rfl, rfl, rfl, rfl, rfl⟩

/-- C7: a successful `fetchTodos` returns exactly the rows owned by the
current identity, ordered by creation timestamp descending (newest
first); a failed service call is reported as a remote error carrying the
diagnostic text of the service. -/
theorem fetch_ordered_owned (db : DB) (uid : String) (auth : Option String)
    (m : String) :
    fetchTodos (some uid) none db = .ok (dbSelectTodos db uid) ∧
    List.Sorted createdDesc (dbSelectTodos db uid) ∧
    (∀ t : Todo, t ∈ dbSelectTodos db uid ↔ t ∈ db.rows ∧ t.user_id = uid) ∧
    fetchTodos auth (some m) db = .error (.remote m) := by
  refine ⟨rfl, ?_, ?_, rfl⟩
  · exact List.sorted_insertionSort createdDesc (ownedRows db uid)
  · intro t
    constructor
    · intro ht
      have h1 := (List.perm_insertionSort createdDesc (ownedRows db uid)).mem_iff.mp ht
      have h2 := List.mem_filter.mp h1
      exact ⟨h2.1, by simpa using h2.2⟩
    · intro h
      apply (List.perm_insertionSort createdDesc (ownedRows db uid)).mem_iff.mpr
      exact List.mem_filter.mpr ⟨h.1, by simpa using h.2⟩

/-- C8 counterexample: the create form schema is `z.string().min(1)`, so
the whitespace-only title consisting of a single space passes validation
and a create call is issued with it, although it trims to the empty
string. -/
theorem create_validation_counterexample :
    jsTrim " " = "" ∧ onSubmitCreate " " = some " " :=
  ⟨rfl, rfl⟩

/-- C8 amended: the create form rejects only the empty title (a
whitespace-only title passes the length check and is sent unchanged, so
every created title is a non-empty string); the edit path rejects empty
and whitespace-only titles and sends the trimmed text; the bulk-add path
drops missing, empty and whitespace-only suggestion titles. -/
theorem validation_amended :
    (∀ title sent, onSubmitCreate title = some sent →
      sent = title ∧ sent ≠ "") ∧
    onSubmitCreate "" = none ∧
    (∀ e sent, handleSaveEdit e = some sent →
      sent = jsTrim e ∧ sent ≠ "") ∧
    (∀ e, jsTrim e = "" → handleSaveEdit e = none) ∧
    (∀ sel sug t, t ∈ titlesToAdd sel sug → t ≠ "" ∧ jsTrim t ≠ "") := by
  refine ⟨?_, rfl, ?_, ?_, ?_⟩
  · intro title sent h
    unfold onSubmitCreate at h
    split at h
    case isTrue hc =>
      injection h with h2
      subst h2
      refine ⟨rfl, ?_⟩
      intro he
      subst he
      simp [todoSchemaCheck] at hc
    case isFalse => exact Option.noConfusion h
  · intro e sent h
    unfold handleSaveEdit at h
    split at h
    case isTrue => exact Option.noConfusion h
    case isFalse hne =>
      injection h with h2
      subst h2
      exact ⟨rfl, hne⟩
  · intro e he
    unfold handleSaveEdit
    rw [if_pos he]
  · intro sel sug t ht
    unfold titlesToAdd at ht
    rw [List.mem_filterMap] at ht
    obtain ⟨o, _, ho⟩ := ht
    cases o with
    | none => exact Option.noConfusion ho
    | some u =>
      dsimp at ho
      split at ho
      case isTrue => exact Option.noConfusion ho
      case isFalse hcond =>
        injection ho with h2
        subst h2
        simpa using hcond

theorem validation_amended_witness :
    (("a" : String) = "a" ∧ ("a" : String) ≠ "") ∧
    (("x" : String) = jsTrim " x " ∧ ("x" : String) ≠ "") ∧
    handleSaveEdit "  " = none ∧
    (("Pack" : String) ≠ "" ∧ jsTrim "Pack" ≠ "") :=
  ⟨validation_amended.1 "a" "a" rfl,
   validation_amended.2.2.1 " x " "x" rfl,
   validation_amended.2.2.2.1 "  " rfl,
   validation_amended.2.2.2.2 [0] [⟨"Pack", none⟩] "Pack" (List.Mem.head _)⟩

/-- Titles owned by an identity grow by exactly the batch, in completion
order, when a batch of creates completes. -/
theorem bulkCreate_ownedTitles (uid : String) (l : List String) (db : DB) :
    (ownedRows (bulkCreate uid db l) uid).map Todo.title =
      (ownedRows db uid).map Todo.title ++ l := by
  induction l generalizing db with
  | nil => simp [bulkCreate]
  | cons t rest ih =>
    rw [bulkCreate, ih]
    have hrows : ownedRows (dbInsert db uid t).2 uid =
        ownedRows db uid ++ [serverNewTodo db uid t] := by
      simp [ownedRows, dbInsert, List.filter_append, serverNewTodo]
    rw [hrows]
    simp [serverNewTodo]

/-- C9: when distinct fresh titles are created concurrently (the creates
are dispatched in parallel and joined on all completing, so the server
observes them in an arbitrary completion order and assigns increasing
creation timestamps in that order), a subsequent single list read returns
every submitted title exactly once, ordered by the server-assigned
creation timestamps. -/
theorem bulk_add_converges (db : DB) (uid : String)
    (titles completionOrder : List String)
    (hnd : titles.Nodup)
    (hfresh : ∀ r ∈ db.rows, r.title ∉ titles)
    (hperm : completionOrder.Perm titles) :
    List.Sorted createdDesc
      (dbSelectTodos (bulkCreate uid db completionOrder) uid) ∧
    ∀ t ∈ titles,
      ((dbSelectTodos (bulkCreate uid db completionOrder) uid).map
        Todo.title).count t = 1 := by
  constructor
  · exact List.sorted_insertionSort createdDesc _
  · intro t ht
    have hmapperm :
        ((dbSelectTodos (bulkCreate uid db completionOrder) uid).map
          Todo.title).Perm
        ((ownedRows (bulkCreate uid db completionOrder) uid).map Todo.title) :=
      (List.perm_insertionSort createdDesc _).map Todo.title
    rw [hmapperm.count_eq, bulkCreate_ownedTitles, List.count_append]
    have h0 : ((ownedRows db uid).map Todo.title).count t = 0 := by
      rw [List.count_eq_zero]
      intro hmem
      obtain ⟨r, hr, hrt⟩ := List.mem_map.mp hmem
      exact hfresh r (List.mem_filter.mp hr).1 (by rw [hrt]; exact ht)
    rw [h0, hperm.count_eq, List.count_eq_one_of_mem hnd ht]

theorem bulk_add_converges_witness :
    (["A", "B", "C"] : List String).Nodup ∧
    (["B", "C", "A"] : List String).Perm ["A", "B", "C"] ∧
    ((dbSelectTodos (bulkCreate "u" ⟨[], 0, 0⟩ ["B", "C", "A"]) "u").map
      Todo.title).count "A" = 1 :=
  ⟨by decide, by decide,
   (bulk_add_converges ⟨[], 0, 0⟩ "u" ["A", "B", "C"] ["B", "C", "A"]
      (by decide) (by intro r hr; simp at hr) (by decide)).2 "A"
      (List.Mem.head _)⟩
